import Mathlib

/-!
Verification development for the mitiq circuit-folding engine
(`src/mitiq/folding_cirq.py`).

The embedding models a cirq circuit as an ordered list of moments, each
moment an ordered list of operations (cirq stores the operations of a moment
as a tuple in insertion order).  An operation carries a gate identifier, a
dagger flag (so that `inverse` is an involution), the list of qubits it
acts on, and a measurement flag.  Stretch factors, which are Python
floats in the source, are modelled as exact rationals; every numeric
comparison the source performs (range checks, `np.isclose`, the Python
banker rounding) is reproduced on ℚ.

Fallible Python code (exceptions) is modelled with `Except FoldErr`.
Functions of the source that mutate their argument in place are modelled
by returning the new value; for the exposed entry points an explicit
`..._input_after` definition records the state of the caller-supplied
circuit after the call (Python passes the circuit object by reference,
so an in-place mutation before a deep copy is visible to the caller).
-/

set_option maxHeartbeats 4000000
set_option maxRecDepth 8000

namespace FoldingCirq

/-- An operation (gate application): gate id, dagger flag, qubits acted
on, and whether it is a measurement.  Mirrors what the folding code uses
of `cirq.ops.Operation`: an inverse and the measurement predicate of
`_is_measurement` (`folding_cirq.py` line 11). -/
structure Op where
  gid : Nat
  dag : Bool
  qubits : List Nat
  meas : Bool
deriving DecidableEq

/-- A moment: the operations sharing one time step, in insertion order
(cirq `Moment.operations` is a tuple). -/
abbrev Moment := List Op

/-- A circuit: an ordered list of moments (cirq `Circuit._moments`). -/
abbrev Circuit := List Moment

/-- Errors raised by the Python source (`ValueError`, `IndexError`,
`KeyError`, `ZeroDivisionError`), plus `noneReturn` for the implicit
`return None` at the end of `fold_gates_from_left`, and `fuelExhausted`
for the fuel bound of the `while` loop of `fold_local` (proved
unreachable for sufficient fuel below). -/
inductive FoldErr where
  | invalidCircuit
  | invalidStretch
  | indexError
  | keyError
  | emptyChoice
  | momentIndexNotTracked
  | zeroDivision
  | noneReturn
  | fuelExhausted
deriving DecidableEq

instance {ε α : Type} [DecidableEq ε] [DecidableEq α] : DecidableEq (Except ε α) := fun a b =>
  match a, b with
  | .ok x, .ok y => if h : x = y then .isTrue (by rw [h]) else .isFalse (by simp [h])
  | .error e, .error f => if h : e = f then .isTrue (by rw [h]) else .isFalse (by simp [h])
  | .ok _, .error _ => .isFalse (by simp)
  | .error _, .ok _ => .isFalse (by simp)

/-- Inverse of an operation: `cirq.inverse(op)` (a dagger). -/
def inverse_op (o : Op) : Op := { o with dag := !o.dag }

/-- Inverse of a moment: `cirq.inverse` on an iterable of operations
yields the individually inverted operations in reversed order. -/
def inverse_moment (m : Moment) : Moment := m.reverse.map inverse_op

/-- Inverse of a circuit: reversed moments, each moment inverted
(`cirq.inverse(base_circuit)` as used by `fold_global`, line 381). -/
def inverse_circuit (c : Circuit) : Circuit := c.reverse.map inverse_moment

/-- Whether two operations share a qubit (cirq moment conflict test). -/
def ops_overlap (o1 o2 : Op) : Bool := o1.qubits.any (fun q => o2.qubits.contains q)

/-- The predicate `_is_measurement` (`folding_cirq.py` lines 11-17). -/
def is_measurement (o : Op) : Bool := o.meas

/-- All operations of the circuit in order: `circuit.all_operations()`. -/
def all_operations (c : Circuit) : List Op := c.flatten

/-- The number of operations: `len(list(circuit.all_operations()))`. -/
def num_ops (c : Circuit) : Nat := (all_operations c).length

/-- The predicate `circuit.are_all_measurements_terminal()` of the cirq
collaborator: every measurement has no operation on an overlapping qubit
in any later moment. -/
def are_all_measurements_terminal (c : Circuit) : Bool :=
  (List.range c.length).all (fun i =>
    ((c.getD i []).filter is_measurement).all (fun o =>
      (c.drop (i + 1)).all (fun m => m.all (fun o2 => !ops_overlap o2 o))))

/-- The circuit with every measurement removed from its moment; empty
moments are kept in place (cirq `batch_remove` rebuilds each affected
moment without the removed operations and never deletes a moment).
This is the effect of `_pop_measurements` (lines 20-24) on the circuit
it is handed. -/
def strip_measurements (c : Circuit) : Circuit :=
  c.map (fun m => m.filter (fun o => !is_measurement o))

/-- The measurements found by `circuit.findall_operations(_is_measurement)`
in `_pop_measurements`: (moment index, operation) pairs in circuit order. -/
def find_measurements (c : Circuit) : List (Nat × Op) :=
  (List.range c.length).flatMap (fun i =>
    ((c.getD i []).filter is_measurement).map (fun o => (i, o)))

/-- The value/effect pair of `_pop_measurements(circuit)` (lines 20-24):
the mutated circuit and the returned measurement list. -/
def pop_measurements (c : Circuit) : Circuit × List (Nat × Op) :=
  (strip_measurements c, find_measurements c)

/-- Whether an operation can be added to a moment (qubit-disjointness,
cirq `Moment.with_operation` precondition). -/
def can_add_to_moment (m : Moment) (o : Op) : Bool := m.all (fun p => !ops_overlap p o)

/-- Adds one operation into the final moment of the circuit if it fits,
otherwise appends a new moment holding it.  Modelled from the spec: the
measurement extractor "reinserts previously extracted measurements at
the final moment index of the current circuit" (spec section 4.1) and
"measurements, when present, always end up in the final moment of every
returned circuit" (spec section 8); the cirq `batch_insert` collaborator
that `_append_measurements` calls is not part of this repository. -/
def add_to_last_moment (c : Circuit) (o : Op) : Circuit :=
  match c.getLast? with
  | none => [[o]]
  | some m => if can_add_to_moment m o then c.dropLast ++ [m ++ [o]] else c ++ [[o]]

/-- The effect of `_append_measurements(circuit, measurements)`
(lines 27-31): the moment index of every measurement is overwritten with the
final moment before a batch insert, so each measurement is put into the
last moment of the circuit. -/
def append_measurements (c : Circuit) (meas : List (Nat × Op)) : Circuit :=
  meas.foldl (fun acc p => add_to_last_moment acc p.2) c

/-- Insertion with `InsertStrategy.NEW` at a moment index: every listed
operation is placed in its own freshly created moment starting at the
given index (cirq `circuit.insert(i, ops, strategy=InsertStrategy.NEW)`;
the index is clamped into range, which `List.take`/`List.drop` do). -/
def insert_new_moments (c : Circuit) (i : Nat) (ops : List Op) : Circuit :=
  c.take i ++ ops.map (fun o => [o]) ++ c.drop i

/-- The Python `round` function on an exact rational: nearest integer, ties to the
even integer (the source computes `int(round(...))`). -/
def python_round (q : ℚ) : ℤ :=
  let f := Int.floor q
  let r := q - f
  if r < 1/2 then f
  else if r > 1/2 then f + 1
  else if f % 2 = 0 then f else f + 1

/-- The budget `_get_num_to_fold(stretch, ngates)` (lines 127-134):
`int(round(ngates * (stretch - 1.0) / 2.0))`. -/
def get_num_to_fold (stretch : ℚ) (ngates : Nat) : ℤ :=
  python_round ((ngates : ℚ) * (stretch - 1) / 2)

/-- The test `np.isclose(a, b, atol=atol)` on exact rationals:
numpy uses `abs(a - b) <= atol + rtol * abs(b)` with `rtol = 1e-5`. -/
def np_isclose (a b atol : ℚ) : Prop := |a - b| ≤ atol + 1/100000 * |b|

instance (a b atol : ℚ) : Decidable (np_isclose a b atol) :=
  inferInstanceAs (Decidable (|a - b| ≤ atol + 1/100000 * |b|))

/-- The single-gate folder `_fold_gate_at_index_in_moment` (lines 35-47):
reads `circuit[moment_index].operations[gate_index]` (an out-of-range
index raises `IndexError`) and inserts `[op, inverse(op)]` as two new
moments at `moment_index`, so the moment originally holding the gate is
now two positions later. -/
def fold_gate_at_index_in_moment (circ : Circuit) (moment_index gate_index : Nat) :
    Except FoldErr Circuit :=
  match circ[moment_index]? with
  | none => .error .indexError
  | some m =>
    match m[gate_index]? with
    | none => .error .indexError
    | some op => .ok (insert_new_moments circ moment_index [op, inverse_op op])

/-- Loop body of `_fold_gates_in_moment` (lines 50-63): the i-th listed
gate index is folded at `moment_index + 2 * i`, because each fold adds
two moments in front of the target moment. -/
def fold_gates_in_moment_go (c : Circuit) (moment_index : Nat) :
    List Nat → Nat → Except FoldErr Circuit
  | [], _ => .ok c
  | gi :: rest, i =>
    match fold_gate_at_index_in_moment c (moment_index + 2 * i) gi with
    | .error e => .error e
    | .ok c2 => fold_gates_in_moment_go c2 moment_index rest (i + 1)

/-- The helper `_fold_gates_in_moment(circuit, moment_index, gate_indices)`
(lines 50-63). -/
def fold_gates_in_moment (c : Circuit) (moment_index : Nat) (gate_indices : List Nat) :
    Except FoldErr Circuit :=
  fold_gates_in_moment_go c moment_index gate_indices 0

/-- Loop of `fold_gates` (lines 82-87): moments are processed with a
cumulative shift of two moments per previously folded gate; the Python
expression `gate_indices[i]` raises `IndexError` when the gate-index list is
shorter than the moment-index list. -/
def fold_gates_go : Circuit → List Nat → List (List Nat) → Nat → Except FoldErr Circuit
  | c, [], _, _ => .ok c
  | _, _ :: _, [], _ => .error .indexError
  | c, mi :: mis, gis :: giss, shift =>
    match fold_gates_in_moment c (mi + shift) gis with
    | .error e => .error e
    | .ok c2 => fold_gates_go c2 mis giss (shift + 2 * gis.length)

/-- The entry point `fold_gates(circuit, moment_indices, gate_indices)`
(lines 66-87): deep-copies the circuit and folds the specified gates.
There is no measurement-terminality check in this function. -/
def fold_gates (c : Circuit) (moment_indices : List Nat) (gate_indices : List (List Nat)) :
    Except FoldErr Circuit :=
  fold_gates_go c moment_indices gate_indices 0

/-- Loop of `_fold_moments` (lines 90-103): inserts the moment followed
by its inverse at `i + shift` (cirq places the moment copy verbatim and
packs the mutually disjoint inverted operations into the next moment),
with `shift` growing by two per fold; `circuit[i + shift]` raises
`IndexError` when out of range. -/
def fold_moments_go : Circuit → List Nat → Nat → Except FoldErr Circuit
  | circ, [], _ => .ok circ
  | circ, i :: rest, shift =>
    match circ[i + shift]? with
    | none => .error .indexError
    | some m =>
      fold_moments_go (circ.take (i + shift) ++ [m, inverse_moment m] ++ circ.drop (i + shift))
        rest (shift + 2)

/-- The entry point `fold_moments(circuit, moment_indices)` (lines
106-119): deep-copies the circuit and folds the listed moments.  There
is no measurement-terminality check in this function. -/
def fold_moments (c : Circuit) (moment_indices : List Nat) : Except FoldErr Circuit :=
  fold_moments_go c moment_indices 0

/-- The helper `_fold_all_gates_locally(circuit)` (lines 122-124):
folds every moment. -/
def fold_all_gates_locally (c : Circuit) : Except FoldErr Circuit :=
  fold_moments_go c (List.range c.length) 0

/-- The gate slots `(moment_index, gate_index)` enumerated by the main
loop of `fold_gates_from_left` (lines 169-170).  The loop runs over the
original circuit of the caller, so measurement operations still count towards
the length of each moment even though the folding itself happens in the
measurement-stripped copy. -/
def slots_of (c : Circuit) : List (Nat × Nat) :=
  (List.range c.length).flatMap (fun mi =>
    (List.range (c.getD mi []).length).map (fun gi => (mi, gi)))

/-- Main loop of `fold_gates_from_left` (lines 166-176): folds the slot
at `moment_index + moment_shift`, bumps the shift by two, and returns
with the measurements appended as soon as `num_folded` reaches
`num_to_fold`.  If the slots run out first, Python falls off the loop
and the function implicitly returns `None`. -/
def fold_left_loop (meas : List (Nat × Op)) (num_to_fold : ℤ) :
    Circuit → List (Nat × Nat) → Nat → Nat → Except FoldErr Circuit
  | _, [], _, _ => .error .noneReturn
  | folded, (mi, gi) :: rest, moment_shift, num_folded =>
    match fold_gate_at_index_in_moment folded (mi + moment_shift) gi with
    | .error e => .error e
    | .ok folded2 =>
      if (num_folded + 1 : ℤ) = num_to_fold then .ok (append_measurements folded2 meas)
      else fold_left_loop meas num_to_fold folded2 rest (moment_shift + 2) (num_folded + 1)

/-- The entry point `fold_gates_from_left(circuit, stretch)` (lines
137-176): checks measurement terminality and the stretch range, strips
measurements from a deep copy, computes the budget, and folds slots
left to right. -/
def fold_gates_from_left (c : Circuit) (stretch : ℚ) : Except FoldErr Circuit :=
  if are_all_measurements_terminal c = false then .error .invalidCircuit
  else if ¬(1 ≤ stretch ∧ stretch ≤ 3) then .error .invalidStretch
  else
    let folded := strip_measurements c
    let meas := find_measurements c
    let num_to_fold := get_num_to_fold stretch (num_ops folded)
    if num_to_fold = 0 then .ok (append_measurements folded meas)
    else fold_left_loop meas num_to_fold folded (slots_of c) 0 0

/-- The entry point `fold_gates_from_right(circuit, stretch)` (lines
179-202).  Note that `_pop_measurements(circuit)` is called on the
circuit of the caller itself, not on a deep copy: the input circuit is
mutated (see `fold_gates_from_right_input_after`).  The moment-reversed
stripped circuit is folded from the left and reversed back, and the
measurements are appended. -/
def fold_gates_from_right (c : Circuit) (stretch : ℚ) : Except FoldErr Circuit :=
  if are_all_measurements_terminal c = false then .error .invalidCircuit
  else
    let stripped := strip_measurements c
    let meas := find_measurements c
    match fold_gates_from_left stripped.reverse stretch with
    | .error e => .error e
    | .ok rf => .ok (append_measurements rf.reverse meas)

/-- The state of the caller-supplied circuit after
`fold_gates_from_right` returns or raises: the terminality check happens
first, and then `_pop_measurements` removes every measurement from the
circuit of the caller in place (line 196) before any copy is made. -/
def fold_gates_from_right_input_after (c : Circuit) (_stretch : ℚ) : Circuit :=
  if are_all_measurements_terminal c = false then c else strip_measurements c

/-- The state of the caller-supplied circuit after `fold_gates_from_left`:
unchanged, because the function deep-copies before mutating (line 157). -/
def fold_gates_from_left_input_after (c : Circuit) (_stretch : ℚ) : Circuit := c

/-- The state of the caller-supplied circuit after `fold_gates`:
unchanged (deep copy at line 82). -/
def fold_gates_input_after (c : Circuit) (_mis : List Nat) (_gis : List (List Nat)) :
    Circuit := c

/-- The state of the caller-supplied circuit after `fold_moments`:
unchanged (deep copy at line 117). -/
def fold_moments_input_after (c : Circuit) (_mis : List Nat) : Circuit := c

/-- The state of the caller-supplied circuit after `fold_gates_at_random`:
unchanged (deep copy at line 253). -/
def fold_gates_at_random_input_after (c : Circuit) (_stretch : ℚ) : Circuit := c

/-- The state of the caller-supplied circuit after `fold_local`:
unchanged (deep copy at line 326). -/
def fold_local_input_after (c : Circuit) (_stretch : ℚ) : Circuit := c

/-- The state of the caller-supplied circuit after `fold_global`:
unchanged (deep copy at line 370). -/
def fold_global_input_after (c : Circuit) (_stretch : ℚ) : Circuit := c

/-- The bookkeeping `_update_moment_indices(moment_indices,
moment_index_where_gate_was_folded)` (lines 205-230): raises when the
folded moment index is not a tracked key, otherwise adds two to the
mapped position of every original moment at or after it. -/
def update_moment_indices (moment_indices : List (Nat × Nat)) (folded_at : Nat) :
    Except FoldErr (List (Nat × Nat)) :=
  if moment_indices.all (fun p => p.1 != folded_at) then .error .momentIndexNotTracked
  else .ok (moment_indices.map (fun p => if folded_at ≤ p.1 then (p.1, p.2 + 2) else p))

/-- Assoc-list lookup modelling a Python dict read (raises `KeyError`
when absent; the dictionaries of `fold_gates_at_random` have distinct
keys). -/
def dict_get {α : Type} (l : List (Nat × α)) (k : Nat) : Option α :=
  match l.find? (fun p => p.1 == k) with
  | some p => some p.2
  | none => none

/-- Assoc-list overwrite of the value at a key (Python dict assignment). -/
def dict_set {α : Type} (l : List (Nat × α)) (k : Nat) (v : α) : List (Nat × α) :=
  l.map (fun p => if p.1 == k then (k, v) else p)

/-- Removal of the first occurrence of a value (Python `list.remove`;
at every call site the value is present and values are distinct). -/
def remove_first : List Nat → Nat → List Nat
  | [], _ => []
  | x :: xs, v => if x = v then xs else x :: remove_first xs v

/-- Global state of the numpy pseudo-random generator.  Modelled from the
spec: the generator is "either explicitly seeded (reproducible) or left
to ambient entropy" (spec section 5); numpy itself is an external
collaborator, so a concrete deterministic generator with global state
stands in for it. -/
abbrev RNG := Nat

/-- One step of the modelled generator (a linear congruential step). -/
def rng_step (g : RNG) : RNG := (g * 1103515245 + 12345) % 2147483648

/-- The effect of `np.random.seed(seed)`: the global generator state
becomes a function of the seed alone. -/
def np_seed (z : ℤ) : RNG := z.natAbs % 2147483648

/-- The call `np.random.choice(l)`: uniform choice from a non-empty
list, consuming generator state; numpy raises `ValueError` on an empty
list. -/
def np_choice (l : List Nat) (g : RNG) : Except FoldErr (Nat × RNG) :=
  if l.isEmpty then .error .emptyChoice
  else .ok (l.getD (g % l.length) 0, rng_step g)

/-- The mutable bookkeeping of one `fold_gates_at_random` call: the
working circuit, the original-to-folded moment-index map (line 269),
the remaining gate indices per original moment (line 272), the original
moments that still hold a foldable gate (line 275), and the generator
state. -/
structure RandState where
  folded : Circuit
  momentIndices : List (Nat × Nat)
  remainingGates : List (Nat × List Nat)
  remainingMoments : List Nat
  g : RNG

/-- The `for _ in range(num_to_fold)` loop of `fold_gates_at_random`
(lines 277-293), one iteration per fold: choose a moment with remaining
gates, choose a gate in it, fold at the mapped moment index, update the
moment-index map, and drop the folded gate (and, once empty, its
moment) from the remaining sets. -/
def fold_random_loop : Nat → RandState → Except FoldErr Circuit × RNG
  | 0, st => (.ok st.folded, st.g)
  | k + 1, st =>
    match np_choice st.remainingMoments st.g with
    | .error e => (.error e, st.g)
    | .ok (mj, g1) =>
      match dict_get st.remainingGates mj with
      | none => (.error .keyError, g1)
      | some gl =>
        match np_choice gl g1 with
        | .error e => (.error e, g1)
        | .ok (gi, g2) =>
          match dict_get st.momentIndices mj with
          | none => (.error .keyError, g2)
          | some mapped =>
            match fold_gate_at_index_in_moment st.folded mapped gi with
            | .error e => (.error e, g2)
            | .ok folded2 =>
              match update_moment_indices st.momentIndices mj with
              | .error e => (.error e, g2)
              | .ok momentIndices2 =>
                let gl2 := remove_first gl gi
                fold_random_loop k
                  { folded := folded2
                    momentIndices := momentIndices2
                    remainingGates := dict_set st.remainingGates mj gl2
                    remainingMoments :=
                      if gl2.isEmpty then remove_first st.remainingMoments mj
                      else st.remainingMoments
                    g := g2 }

/-- The seeding step `if seed: np.random.seed(seed)` (lines 262-263):
`if seed:` is a Python truthiness test, so `None` and `0` both leave
the ambient generator state untouched. -/
def resolve_seed (seed : Option ℤ) (g : RNG) : RNG :=
  match seed with
  | some z => if z = 0 then g else np_seed z
  | none => g

/-- The entry point `fold_gates_at_random(circuit, stretch, seed)`
(lines 233-296).  The ambient generator state is threaded explicitly. -/
def fold_gates_at_random (c : Circuit) (stretch : ℚ) (seed : Option ℤ) (g : RNG) :
    Except FoldErr Circuit × RNG :=
  if are_all_measurements_terminal c = false then (.error .invalidCircuit, g)
  else if ¬(1 ≤ stretch ∧ stretch ≤ 3) then (.error .invalidStretch, g)
  else
    let folded := strip_measurements c
    let meas := find_measurements c
    if np_isclose stretch 3 (1/1000) then
      match fold_all_gates_locally folded with
      | .error e => (.error e, g)
      | .ok f2 => (.ok (append_measurements f2 meas), g)
    else
      let g1 : RNG := resolve_seed seed g
      let num_to_fold := get_num_to_fold stretch (num_ops folded)
      let st : RandState :=
        { folded := folded
          momentIndices := (List.range c.length).map (fun i => (i, i))
          remainingGates :=
            (List.range c.length).map (fun i => (i, List.range (c.getD i []).length))
          remainingMoments :=
            (List.range c.length).filter (fun i => !(c.getD i []).isEmpty)
          g := g1 }
      match fold_random_loop num_to_fold.toNat st with
      | (.error e, g2) => (.error e, g2)
      | (.ok f2, g2) => (.ok (append_measurements f2 meas), g2)

/-- The staged stretch of one `fold_local` iteration (line 335):
`this_stretch = 3. if stretch > 3. else stretch`. -/
def this_stretch (stretch : ℚ) : ℚ := if stretch > 3 then 3 else stretch

/-- The `while stretch > 1.` loop of `fold_local` (lines 334-338),
with a fuel bound standing in for the termination argument of the
Python loop; `fold_local_fuel` below is proved sufficient, making the
`fuelExhausted` branch unreachable from `fold_local`. -/
def fold_local_loop (fold_method : Circuit → ℚ → Except FoldErr Circuit) :
    Nat → Circuit → ℚ → Except FoldErr Circuit
  | 0, folded, stretch => if stretch > 1 then .error .fuelExhausted else .ok folded
  | fuel + 1, folded, stretch =>
    if stretch > 1 then
      match fold_method folded (this_stretch stretch) with
      | .error e => .error e
      | .ok folded2 => fold_local_loop fold_method fuel folded2 (stretch / 3)
    else .ok folded

/-- Fuel for `fold_local_loop`: dividing by three at most `⌈stretch⌉`
times brings any stretch at or below one. -/
def fold_local_fuel (stretch : ℚ) : Nat := (Int.ceil stretch).toNat

/-- The composer `fold_local(circuit, stretch, fold_method, ...)` (lines
299-338): returns the deep copy unchanged when the stretch is within
`np.isclose(stretch, 1.0, atol=1e-2)` of one, raises when the stretch is
below one, and otherwise applies the fold method in stages of at most
three, dividing the remaining stretch by three after every stage. -/
def fold_local (c : Circuit) (stretch : ℚ)
    (fold_method : Circuit → ℚ → Except FoldErr Circuit) : Except FoldErr Circuit :=
  if np_isclose stretch 1 (1/100) then .ok c
  else if ¬(1 ≤ stretch) then .error .invalidStretch
  else fold_local_loop fold_method (fold_local_fuel stretch) c stretch

/-- The global-fold count `int(stretch // 3)` of `fold_global`
(line 375). -/
def num_global_folds (stretch : ℚ) : Nat := (Int.floor (stretch / 3)).toNat

/-- The fractional remainder `stretch % 3` of `fold_global` (line 376);
the Python float modulo for a positive divisor. -/
def fractional_stretch (stretch : ℚ) : ℚ := stretch - 3 * Int.floor (stretch / 3)

/-- The local budget of `fold_global` (line 377): computed from the
operation count of the original circuit of the caller, measurements
included. -/
def global_num_to_fold_locally (c : Circuit) (stretch : ℚ) : ℤ :=
  get_num_to_fold (fractional_stretch stretch) (num_ops c)

/-- The `for _ in range(num_global_folds)` loop of `fold_global` (lines
380-381): appends `Circuit(inverse(base_circuit), base_circuit)` to the
working circuit once per global fold. -/
def append_global_folds (base : Circuit) : Circuit → Nat → Circuit
  | folded, 0 => folded
  | folded, k + 1 => append_global_folds base (folded ++ (inverse_circuit base ++ base)) k

/-- The adjusted local stretch of `fold_global` (line 385):
`2. * num_to_fold_locally / len(list(circuit.all_operations())) + 1.`,
whose denominator is the operation count of the original circuit
of the caller (measurements included), not of the globally folded circuit;
division by zero on an operation-free circuit raises. -/
def fold_global_adjusted_stretch (c : Circuit) (stretch : ℚ) : ℚ :=
  2 * (global_num_to_fold_locally c stretch : ℚ) / (num_ops c : ℚ) + 1

/-- The circuit-level entry point `fold_global(circuit, stretch,
finish_fold_method, ...)` (lines 342-389). -/
def fold_global (c : Circuit) (stretch : ℚ)
    (finish_fold_method : Circuit → ℚ → Except FoldErr Circuit) : Except FoldErr Circuit :=
  if ¬(1 ≤ stretch) then .error .invalidStretch
  else if are_all_measurements_terminal c = false then .error .invalidCircuit
  else
    let folded := strip_measurements c
    let meas := find_measurements c
    let base := folded
    let glob := append_global_folds base folded (num_global_folds stretch)
    if num_ops c = 0 then .error .zeroDivision
    else
      match fold_local glob (fold_global_adjusted_stretch c stretch) finish_fold_method with
      | .error e => .error e
      | .ok f2 => .ok (append_measurements f2 meas)

/-- Modelled from the spec: the adjusted local stretch as section 4.9
describes it, "translate this into an equivalent local stretch factor
relative to the current (globally-folded, larger) gate count" — the
denominator is the operation count after the global folds, unlike the
one of the source.  Used only to compare the description given by the
spec against the code. -/
def fold_global_adjusted_stretch_spec (c : Circuit) (stretch : ℚ) : ℚ :=
  2 * (global_num_to_fold_locally c stretch : ℚ) /
    (num_ops (append_global_folds (strip_measurements c) (strip_measurements c)
      (num_global_folds stretch)) : ℚ) + 1

/-- Modelled from the spec: `fold_global` as section 4.9 describes it,
identical to the source except that the finishing local stretch is
computed relative to the globally folded gate count. -/
def fold_global_spec (c : Circuit) (stretch : ℚ)
    (finish_fold_method : Circuit → ℚ → Except FoldErr Circuit) : Except FoldErr Circuit :=
  if ¬(1 ≤ stretch) then .error .invalidStretch
  else if are_all_measurements_terminal c = false then .error .invalidCircuit
  else
    let folded := strip_measurements c
    let meas := find_measurements c
    let base := folded
    let glob := append_global_folds base folded (num_global_folds stretch)
    if num_ops glob = 0 then .error .zeroDivision
    else
      match fold_local glob (fold_global_adjusted_stretch_spec c stretch) finish_fold_method with
      | .error e => .error e
      | .ok f2 => .ok (append_measurements f2 meas)

/-- A plain single-qubit gate operation used by concrete test circuits. -/
def gate_op (id q : Nat) : Op := { gid := id, dag := false, qubits := [q], meas := false }

/-- A measurement operation used by concrete test circuits. -/
def meas_op (q : Nat) : Op := { gid := 1000, dag := false, qubits := [q], meas := true }

/-- A two-moment, two-gate circuit on two qubits with no measurements. -/
def circ_two : Circuit := [[gate_op 1 0], [gate_op 2 1]]

/-- A one-gate circuit. -/
def circ_one : Circuit := [[gate_op 1 0]]

/-- A circuit with a terminal measurement in its last moment, after a
gate on the same qubit. -/
def circ_meas_last : Circuit := [[gate_op 1 0], [meas_op 0]]

/-- A circuit whose measurement is terminal but sits in the first
moment next to a gate on another qubit, followed by one more gate on
that qubit. -/
def circ_meas_first : Circuit := [[meas_op 0, gate_op 1 1], [gate_op 1 1]]

/-- A circuit with a non-terminal (intermediate) measurement: the
measured qubit is acted on afterwards. -/
def circ_nonterminal : Circuit := [[meas_op 0], [gate_op 1 0]]

theorem num_ops_append (a b : Circuit) : num_ops (a ++ b) = num_ops a + num_ops b := by
  simp [num_ops, all_operations]

/-- Claim C1: the purity contract of the spec — every exposed folding entry
point leaves the caller-supplied circuit unchanged — is the intent, but
the code slips in `fold_gates_from_right`: it calls
`_pop_measurements(circuit)` on the circuit of the caller before any
deep copy, so the measurements of the caller are removed in place.  All other
entry points deep-copy first and do leave the input unchanged, and the
concrete valid circuit `circ_meas_last` is mutated by a
`fold_gates_from_right` call. -/
theorem claim_C1 :
    (∀ (c : Circuit) (s : ℚ), fold_gates_from_left_input_after c s = c) ∧
    (∀ (c : Circuit) (mis : List Nat) (gis : List (List Nat)),
      fold_gates_input_after c mis gis = c) ∧
    (∀ (c : Circuit) (mis : List Nat), fold_moments_input_after c mis = c) ∧
    (∀ (c : Circuit) (s : ℚ), fold_gates_at_random_input_after c s = c) ∧
    (∀ (c : Circuit) (s : ℚ), fold_local_input_after c s = c) ∧
    (∀ (c : Circuit) (s : ℚ), fold_global_input_after c s = c) ∧
    are_all_measurements_terminal circ_meas_last = true ∧
    fold_gates_from_right_input_after circ_meas_last 2 ≠ circ_meas_last := by
  refine ⟨fun _ _ => rfl, fun _ _ _ => rfl, fun _ _ => rfl, fun _ _ => rfl,
    fun _ _ => rfl, fun _ _ => rfl, by decide, by decide⟩

/-- Claim C2: the gate-count formula is the documented contract, but
`fold_gates_from_left` enumerates the moments of the unstripped input
circuit while folding in the measurement-stripped copy, so on the valid
input `circ_meas_first` (all measurements terminal, stretch 3 in range)
a gate index taken from a moment that also held a measurement overruns
the stripped moment and the call raises `IndexError` instead of
returning a circuit with `2 + 2*round(2*(3-1)/2) = 6` gates. -/
theorem claim_C2 :
    are_all_measurements_terminal circ_meas_first = true ∧
    get_num_to_fold 3 (num_ops (strip_measurements circ_meas_first)) = 2 ∧
    fold_gates_from_left circ_meas_first 3 = .error .indexError := by
  refine ⟨by decide, by with_unfolding_all decide, by with_unfolding_all decide⟩

/-- Claim C3 counterexample: `fold_gates` performs no terminality check;
on the circuit `circ_nonterminal`, which contains an intermediate
measurement, it returns a folded output instead of raising. -/
theorem claim_C3_counterexample :
    are_all_measurements_terminal circ_nonterminal = false ∧
    fold_gates circ_nonterminal [1] [[0]] =
      .ok [[meas_op 0], [gate_op 1 0], [inverse_op (gate_op 1 0)], [gate_op 1 0]] := by
  exact ⟨by decide, by decide⟩

/-- Claim C3 (amended): only `fold_gates_from_left`,
`fold_gates_from_right`, `fold_gates_at_random` and `fold_global`
validate measurement terminality and raise the invalid-circuit error;
`fold_gates` and `fold_moments` perform no such check and return folded
output on a circuit with an intermediate measurement, and `fold_local`
checks nothing itself: at a stretch within tolerance of one it returns
the copied input unchanged even for such a circuit (an error can only
arise from the fold method it invokes otherwise). -/
theorem claim_C3_amended :
    (∀ (c : Circuit) (s : ℚ), are_all_measurements_terminal c = false →
      fold_gates_from_left c s = .error .invalidCircuit) ∧
    (∀ (c : Circuit) (s : ℚ), are_all_measurements_terminal c = false →
      fold_gates_from_right c s = .error .invalidCircuit) ∧
    (∀ (c : Circuit) (s : ℚ) (seed : Option ℤ) (g : RNG),
      are_all_measurements_terminal c = false →
      (fold_gates_at_random c s seed g).1 = .error .invalidCircuit) ∧
    (∀ (c : Circuit) (s : ℚ) (fm : Circuit → ℚ → Except FoldErr Circuit),
      1 ≤ s → are_all_measurements_terminal c = false →
      fold_global c s fm = .error .invalidCircuit) ∧
    fold_gates circ_nonterminal [1] [[0]] =
      .ok [[meas_op 0], [gate_op 1 0], [inverse_op (gate_op 1 0)], [gate_op 1 0]] ∧
    fold_moments circ_nonterminal [1] =
      .ok [[meas_op 0], [gate_op 1 0], [inverse_op (gate_op 1 0)], [gate_op 1 0]] ∧
    fold_local circ_nonterminal 1 fold_gates_from_left = .ok circ_nonterminal := by
  refine ⟨?_, ?_, ?_, ?_, by decide, by decide, by with_unfolding_all decide⟩
  · intro c s h
    unfold fold_gates_from_left
    rw [if_pos h]
  · intro c s h
    unfold fold_gates_from_right
    rw [if_pos h]
  · intro c s seed g h
    unfold fold_gates_at_random
    rw [if_pos h]
  · intro c s fm hs h
    unfold fold_global
    rw [if_neg (by simpa using hs), if_pos h]

/-- Claim C3 witness: the four validating entry points applied to the
concrete intermediate-measurement circuit. -/
theorem claim_C3_witness :
    fold_gates_from_left circ_nonterminal 2 = .error .invalidCircuit ∧
    fold_gates_from_right circ_nonterminal 2 = .error .invalidCircuit ∧
    (fold_gates_at_random circ_nonterminal 2 (some 1) 0).1 = .error .invalidCircuit ∧
    fold_global circ_nonterminal 2 fold_gates_from_left = .error .invalidCircuit :=
  ⟨claim_C3_amended.1 circ_nonterminal 2 (by decide),
   claim_C3_amended.2.1 circ_nonterminal 2 (by decide),
   claim_C3_amended.2.2.1 circ_nonterminal 2 (some 1) 0 (by decide),
   claim_C3_amended.2.2.2.1 circ_nonterminal 2 fold_gates_from_left (by norm_num) (by decide)⟩

/-- Claim C7 counterexample: a stretch strictly below one but within
`np.isclose(stretch, 1.0, atol=1e-2)` of one makes `fold_local` return
the copied input, not raise: the tolerated-equality branch is checked
before the range check. -/
theorem claim_C7_counterexample :
    ((995 : ℚ)/1000 < 1) ∧
    fold_local circ_one (995/1000) fold_gates_from_left = .ok circ_one := by
  refine ⟨by norm_num, by with_unfolding_all decide⟩

/-- Claim C7 (amended): for every stretch strictly below one that is
not within the tolerance of one, `fold_local` raises the
invalid-argument error. -/
theorem claim_C7_amended (c : Circuit) (s : ℚ)
    (fm : Circuit → ℚ → Except FoldErr Circuit)
    (h1 : s < 1) (h2 : ¬ np_isclose s 1 (1/100)) :
    fold_local c s fm = .error .invalidStretch := by
  unfold fold_local
  rw [if_neg h2, if_pos (not_le.mpr h1)]

/-- Claim C7 witness: `fold_local` at stretch one half raises. -/
theorem claim_C7_witness :
    fold_local circ_one (1/2) fold_gates_from_left = .error .invalidStretch :=
  claim_C7_amended circ_one (1/2) fold_gates_from_left (by norm_num)
    (by with_unfolding_all decide)

/-- Claim C8: for every valid `(moment_index, gate_index)` the
single-gate folder succeeds and inserts the gate and its inverse as two
distinct new moments immediately preceding the moment originally
holding the gate, growing the circuit by exactly two moments and two
operations, with the original moment (and everything after it) retained
in place. -/
theorem claim_C8 (circ : Circuit) (mi gi : Nat) (h1 : mi < circ.length)
    (h2 : gi < (circ.getD mi []).length) :
    ∃ op : Op,
      fold_gate_at_index_in_moment circ mi gi =
        .ok (circ.take mi ++ [[op], [inverse_op op]] ++ circ.drop mi) ∧
      (circ.take mi ++ [[op], [inverse_op op]] ++ circ.drop mi).length = circ.length + 2 ∧
      num_ops (circ.take mi ++ [[op], [inverse_op op]] ++ circ.drop mi) = num_ops circ + 2 ∧
      (circ.take mi ++ [[op], [inverse_op op]] ++ circ.drop mi).drop (mi + 2) = circ.drop mi ∧
      (circ.take mi ++ [[op], [inverse_op op]] ++ circ.drop mi).take mi = circ.take mi := by
  have hgd : circ.getD mi [] = circ[mi] := List.getD_eq_getElem circ [] h1
  have h2m : gi < circ[mi].length := by rw [← hgd]; exact h2
  refine ⟨circ[mi][gi], ?_, ?_, ?_, ?_, ?_⟩
  · simp only [fold_gate_at_index_in_moment, List.getElem?_eq_getElem h1,
      List.getElem?_eq_getElem h2m]
    rfl
  · simp
    omega
  · rw [num_ops_append, num_ops_append]
    have hsplit : num_ops circ = num_ops (circ.take mi) + num_ops (circ.drop mi) := by
      conv_lhs => rw [← List.take_append_drop mi circ]
      rw [num_ops_append]
    have : num_ops [[circ[mi][gi]], [inverse_op circ[mi][gi]]] = 2 := by
      simp [num_ops, all_operations]
    omega
  · refine List.drop_left' ?_
    simp
    omega
  · rw [List.append_assoc]
    refine List.take_left' ?_
    simp
    omega

/-- Claim C8 witness: the single-gate folder applied at the first gate
of the concrete two-gate circuit. -/
theorem claim_C8_witness :
    ∃ op : Op,
      fold_gate_at_index_in_moment circ_two 0 0 =
        .ok (circ_two.take 0 ++ [[op], [inverse_op op]] ++ circ_two.drop 0) ∧
      (circ_two.take 0 ++ [[op], [inverse_op op]] ++ circ_two.drop 0).length =
        circ_two.length + 2 ∧
      num_ops (circ_two.take 0 ++ [[op], [inverse_op op]] ++ circ_two.drop 0) =
        num_ops circ_two + 2 ∧
      (circ_two.take 0 ++ [[op], [inverse_op op]] ++ circ_two.drop 0).drop (0 + 2) =
        circ_two.drop 0 ∧
      (circ_two.take 0 ++ [[op], [inverse_op op]] ++ circ_two.drop 0).take 0 =
        circ_two.take 0 :=
  claim_C8 circ_two 0 0 (by decide) (by decide)

theorem np_choice_error_is_empty (l : List Nat) (g : RNG) (e : FoldErr)
    (h : np_choice l g = .error e) : e = .emptyChoice := by
  unfold np_choice at h
  split at h
  · cases h; rfl
  · cases h

theorem fold_gate_error_is_index (circ : Circuit) (mi gi : Nat) (e : FoldErr)
    (h : fold_gate_at_index_in_moment circ mi gi = .error e) : e = .indexError := by
  unfold fold_gate_at_index_in_moment at h
  split at h
  · cases h; rfl
  · split at h
    · cases h; rfl
    · cases h

theorem update_moment_indices_of_lookup (l : List (Nat × Nat)) (j v : Nat)
    (h : dict_get l j = some v) :
    update_moment_indices l j =
      .ok (l.map (fun p => if j ≤ p.1 then (p.1, p.2 + 2) else p)) := by
  unfold dict_get at h
  unfold update_moment_indices
  cases hf : l.find? (fun p => p.1 == j) with
  | none => rw [hf] at h; cases h
  | some q =>
    have hq : (q.1 == j) = true := by simpa using List.find?_some hf
    have hmem : q ∈ l := List.mem_of_find?_eq_some hf
    rw [if_neg]
    intro hall
    have hb := List.all_eq_true.mp hall q hmem
    simp only [bne, hq, Bool.not_true] at hb
    cases hb

theorem fold_moments_go_no_tracked_error (l : List Nat) :
    ∀ (circ : Circuit) (shift : Nat),
      fold_moments_go circ l shift ≠ .error .momentIndexNotTracked := by
  induction l with
  | nil => intro circ shift; simp [fold_moments_go]
  | cons i rest ih =>
    intro circ shift
    unfold fold_moments_go
    cases h : circ[i + shift]? with
    | none => simp
    | some m => exact ih _ _

theorem fold_random_loop_no_tracked_error (k : Nat) :
    ∀ st : RandState, (fold_random_loop k st).1 ≠ .error .momentIndexNotTracked := by
  induction k with
  | zero => intro st; simp [fold_random_loop]
  | succ k ih =>
    intro st
    unfold fold_random_loop
    cases h1 : np_choice st.remainingMoments st.g with
    | error e =>
      obtain rfl := np_choice_error_is_empty _ _ _ h1
      simp only [h1]
      simp
    | ok pr =>
      obtain ⟨mj, g1⟩ := pr
      simp only [h1]
      cases h2 : dict_get st.remainingGates mj with
      | none => simp only [h2]; simp
      | some gl =>
        simp only [h2]
        cases h3 : np_choice gl g1 with
        | error e =>
          obtain rfl := np_choice_error_is_empty _ _ _ h3
          simp only [h3]
          simp
        | ok pr2 =>
          obtain ⟨gi, g2⟩ := pr2
          simp only [h3]
          cases h4 : dict_get st.momentIndices mj with
          | none => simp only [h4]; simp
          | some mapped =>
            simp only [h4]
            cases h5 : fold_gate_at_index_in_moment st.folded mapped gi with
            | error e =>
              obtain rfl := fold_gate_error_is_index _ _ _ _ h5
              simp only [h5]
              simp
            | ok folded2 =>
              simp only [h5, update_moment_indices_of_lookup _ _ _ h4]
              exact ih _

theorem fold_all_post_no_tracked_error (c2 : Circuit) (meas : List (Nat × Op)) (g : RNG) :
    (match fold_all_gates_locally c2 with
      | .error e => ((.error e : Except FoldErr Circuit), g)
      | .ok f2 => (.ok (append_measurements f2 meas), g)).1 ≠
      .error .momentIndexNotTracked := by
  cases h : fold_all_gates_locally c2 with
  | error e =>
    simp only [h]
    intro hc
    cases hc
    exact fold_moments_go_no_tracked_error _ _ _ h
  | ok f2 => simp only [h]; simp

theorem fold_random_post_no_tracked_error (k : Nat) (st : RandState)
    (meas : List (Nat × Op)) :
    (match fold_random_loop k st with
      | (.error e, g2) => ((.error e : Except FoldErr Circuit), g2)
      | (.ok f2, g2) => (.ok (append_measurements f2 meas), g2)).1 ≠
      .error .momentIndexNotTracked := by
  have hl := fold_random_loop_no_tracked_error k st
  cases h : fold_random_loop k st with
  | mk r g2 =>
    rw [h] at hl
    cases r with
    | error e => simp only [h]; simpa using hl
    | ok f2 => simp only [h]; simp

/-- Claim C9: the index-error branch of `_update_moment_indices` is
unreachable through `fold_gates_at_random`, for every input (with or
without the preconditions): the moment index at which a gate is folded
is always drawn from the remaining-moments list, whose entries the
moment-index map tracks, and the map is read successfully before the
update runs. -/
theorem claim_C9 (c : Circuit) (s : ℚ) (seed : Option ℤ) (g : RNG) :
    (fold_gates_at_random c s seed g).1 ≠ .error .momentIndexNotTracked := by
  unfold fold_gates_at_random
  split
  · simp
  · split
    · simp
    · dsimp only
      split
      · exact fold_all_post_no_tracked_error _ _ _
      · exact fold_random_post_no_tracked_error _ _ _

/-- Claim C6 counterexample: with the integer seed 0 the generator is
not seeded (Python truthiness at line 262), so two invocations with
identical seed, circuit and stretch — but different ambient generator
states — return different circuits. -/
theorem claim_C6_counterexample :
    (fold_gates_at_random circ_two 2 (some 0) 0).1 ≠
      (fold_gates_at_random circ_two 2 (some 0) 1).1 := by
  with_unfolding_all decide

/-- Claim C6 (amended): for every nonzero integer seed the call is
deterministic — the returned circuit is the same for any two ambient
generator states, because `np.random.seed(seed)` resets the global
state to a function of the seed alone. -/
theorem claim_C6_amended (c : Circuit) (s : ℚ) (z : ℤ) (g1 g2 : RNG) (hz : z ≠ 0) :
    (fold_gates_at_random c s (some z) g1).1 = (fold_gates_at_random c s (some z) g2).1 := by
  have hr : ∀ g : RNG, resolve_seed (some z) g = np_seed z := by
    intro g
    simp [resolve_seed, hz]
  unfold fold_gates_at_random
  rw [hr g1, hr g2]
  by_cases h1 : are_all_measurements_terminal c = false
  · simp only [if_pos h1]
  · simp only [if_neg h1]
    by_cases h2 : ¬(1 ≤ s ∧ s ≤ 3)
    · simp only [if_pos h2]
    · simp only [if_neg h2]
      by_cases h3 : np_isclose s 3 (1/1000)
      · simp only [if_pos h3]
        cases h : fold_all_gates_locally (strip_measurements c) <;> simp only [h]
      · simp only [if_neg h3]

/-- Claim C6 witness: two invocations with seed 7 from different
ambient generator states agree. -/
theorem claim_C6_witness :
    (fold_gates_at_random circ_two 2 (some 7) 0).1 =
      (fold_gates_at_random circ_two 2 (some 7) 1).1 :=
  claim_C6_amended circ_two 2 7 0 1 (by norm_num)

/-- Claim C10: calling `fold_gates_at_random` with seed 0 behaves
exactly as calling it with no seed (the generator is left to the
ambient state in both cases), and two seed-0 runs from different
ambient states can return different circuits. -/
theorem claim_C10 :
    (∀ (c : Circuit) (s : ℚ) (g : RNG),
      fold_gates_at_random c s (some 0) g = fold_gates_at_random c s none g) ∧
    (fold_gates_at_random circ_two 2 none 0).1 ≠
      (fold_gates_at_random circ_two 2 none 1).1 := by
  constructor
  · intro c s g
    unfold fold_gates_at_random
    rw [show resolve_seed (some 0) g = resolve_seed none g from by simp [resolve_seed]]
  · with_unfolding_all decide

theorem fold_local_loop_fuel_irrel (fm : Circuit → ℚ → Except FoldErr Circuit) :
    ∀ (f1 f2 : Nat) (folded : Circuit) (s : ℚ),
      s ≤ 3 ^ f1 → s ≤ 3 ^ f2 →
      fold_local_loop fm f1 folded s = fold_local_loop fm f2 folded s := by
  intro f1
  induction f1 with
  | zero =>
    intro f2 folded s h1 _
    have hs : ¬ s > 1 := by
      simp only [pow_zero] at h1
      linarith
    cases f2 <;> simp [fold_local_loop, hs]
  | succ f1 ih =>
    intro f2 folded s h1 h2
    by_cases hs : s > 1
    · have hf2 : f2 ≠ 0 := by
        intro hz
        subst hz
        simp only [pow_zero] at h2
        linarith
      obtain ⟨f2p, rfl⟩ := Nat.exists_eq_succ_of_ne_zero hf2
      simp only [fold_local_loop, if_pos hs]
      cases fm folded (this_stretch s) with
      | error e => rfl
      | ok x =>
        refine ih f2p x (s / 3) ?_ ?_
        · rw [pow_succ] at h1
          rw [div_le_iff₀ (by norm_num : (0:ℚ) < 3)]
          linarith
        · rw [pow_succ] at h2
          rw [div_le_iff₀ (by norm_num : (0:ℚ) < 3)]
          linarith
    · cases f2 <;> simp [fold_local_loop, hs]

theorem le_pow_fold_local_fuel (s : ℚ) : s ≤ 3 ^ fold_local_fuel s := by
  unfold fold_local_fuel
  rcases le_or_lt s 0 with h | h
  · exact le_trans h (by positivity)
  · have h1 : s ≤ (⌈s⌉ : ℚ) := Int.le_ceil s
    have h2 : (0:ℤ) < ⌈s⌉ := Int.lt_ceil.mpr (by exact_mod_cast h)
    have h3 : ((⌈s⌉.toNat : ℤ) : ℚ) = (⌈s⌉ : ℚ) := by
      rw [Int.toNat_of_nonneg h2.le]
    have h4 : (⌈s⌉.toNat : ℚ) ≤ 3 ^ ⌈s⌉.toNat := by
      exact_mod_cast (Nat.lt_pow_self (by norm_num) ⌈s⌉.toNat).le
    calc s ≤ (⌈s⌉ : ℚ) := h1
      _ = (⌈s⌉.toNat : ℚ) := by exact_mod_cast h3.symm
      _ ≤ 3 ^ ⌈s⌉.toNat := h4

/-- Claim C4 counterexample: `fold_local` at stretch 4 = 2 * 2 with the
left-first strategy is not the sequential composition of stage folds at
2 and 2: the staged loop uses factors 3 and 4/3, which produce a
different circuit than two stages at factor 2 on the concrete two-gate
circuit. -/
theorem claim_C4_counterexample :
    fold_local circ_two 4 fold_gates_from_left ≠
      (fold_local circ_two 2 fold_gates_from_left).bind
        (fun x => fold_local x 2 fold_gates_from_left) := by
  with_unfolding_all decide

/-- Claim C4 (amended): the staging of `fold_local` is multiplicative
with a fixed leading factor of three: for stretch above three (and the
remaining stretch not within tolerance of one), the call equals one
stage of the fold method at factor 3 followed by `fold_local` at
stretch/3.  The factorization into two arbitrary stage factors at most
three does not hold (see the counterexample). -/
theorem claim_C4_amended (c : Circuit) (s : ℚ)
    (fm : Circuit → ℚ → Except FoldErr Circuit)
    (h3 : 3 < s) (hcl : ¬ np_isclose (s / 3) 1 (1/100)) :
    fold_local c s fm = (fm c 3).bind (fun x => fold_local x (s / 3) fm) := by
  have habs : |s - 1| = s - 1 := abs_of_pos (by linarith)
  have hn1 : ¬ np_isclose s 1 (1/100) := by
    unfold np_isclose
    rw [habs]
    intro hle
    have : |(1:ℚ)| = 1 := by norm_num
    rw [this] at hle
    linarith
  have hs1 : (1:ℚ) ≤ s := by linarith
  have hs31 : (1:ℚ) ≤ s / 3 := by linarith
  unfold fold_local
  rw [if_neg hn1, if_neg (not_not_intro hs1)]
  simp only [if_neg hcl, if_neg (not_not_intro hs31)]
  rw [fold_local_loop_fuel_irrel fm (fold_local_fuel s) (fold_local_fuel (s / 3) + 1) c s
    (le_pow_fold_local_fuel s) ?hfuel]
  case hfuel =>
    rw [pow_succ]
    have := le_pow_fold_local_fuel (s / 3)
    rw [div_le_iff₀ (by norm_num : (0:ℚ) < 3)] at this
    linarith
  simp only [fold_local_loop, if_pos (show s > 1 by linarith)]
  rw [show this_stretch s = 3 from if_pos h3]
  cases fm c 3 with
  | error e => rfl
  | ok x => rfl

/-- Claim C4 witness: stretch 9 = 3 * 3 on the concrete two-gate
circuit decomposes into a stage at factor 3 followed by `fold_local`
at 3. -/
theorem claim_C4_witness :
    fold_local circ_two 9 fold_gates_from_left =
      (fold_gates_from_left circ_two 3).bind
        (fun x => fold_local x (9 / 3) fold_gates_from_left) :=
  claim_C4_amended circ_two 9 fold_gates_from_left (by norm_num)
    (by with_unfolding_all decide)

/-- Claim C5 counterexample: at stretch 5 on the concrete two-gate
circuit, the adjusted local stretch the code computes (denominator: the
original operation count, giving 2) differs from the one the claim
describes (denominator: the globally folded operation count, giving
4/3), and the two resulting circuits differ. -/
theorem claim_C5_counterexample :
    fold_global_adjusted_stretch circ_two 5 = 2 ∧
    fold_global_adjusted_stretch_spec circ_two 5 = 4/3 ∧
    fold_global circ_two 5 fold_gates_from_left ≠
      fold_global_spec circ_two 5 fold_gates_from_left := by
  refine ⟨by with_unfolding_all decide, by with_unfolding_all decide,
    by with_unfolding_all decide⟩

/-- Claim C5 (amended): `fold_global` appends `floor(stretch/3)` copies
of (inverse of the measurement-stripped base, base), computes the local
budget from the original pre-fold operation count, and translates it
into a local stretch relative to that same original count (measurements
included) — not relative to the globally folded count; at stretch 4
this yields exactly one global fold and a local budget of zero, so the
returned circuit is the stripped circuit followed by its inverse and
itself, with measurements reattached and no local folding. -/
theorem claim_C5_amended (c : Circuit) (fm : Circuit → ℚ → Except FoldErr Circuit)
    (hT : are_all_measurements_terminal c = true) (hn : 0 < num_ops c) :
    (∀ s : ℚ, fold_global_adjusted_stretch c s * (num_ops c : ℚ) =
      2 * (global_num_to_fold_locally c s : ℚ) + (num_ops c : ℚ)) ∧
    num_global_folds 4 = 1 ∧
    global_num_to_fold_locally c 4 = 0 ∧
    fold_global c 4 fm =
      .ok (append_measurements
        (strip_measurements c ++
          (inverse_circuit (strip_measurements c) ++ strip_measurements c))
        (find_measurements c)) := by
  have hne : (num_ops c : ℚ) ≠ 0 := by exact_mod_cast hn.ne'
  have hfloor : Int.floor ((4:ℚ)/3) = 1 := by norm_num
  have hg : num_global_folds 4 = 1 := by
    unfold num_global_folds
    rw [hfloor]
    rfl
  have hfrac : fractional_stretch 4 = 1 := by
    unfold fractional_stretch
    rw [hfloor]
    norm_num
  have hk : global_num_to_fold_locally c 4 = 0 := by
    unfold global_num_to_fold_locally get_num_to_fold
    rw [hfrac, show ((num_ops c : ℚ) * (1 - 1) / 2) = 0 by ring]
    with_unfolding_all decide
  have hadj : fold_global_adjusted_stretch c 4 = 1 := by
    unfold fold_global_adjusted_stretch
    rw [hk]
    simp
  have hloc : ∀ x : Circuit, fold_local x 1 fm = .ok x := by
    intro x
    unfold fold_local
    rw [if_pos (show np_isclose 1 1 (1/100) by norm_num [np_isclose])]
  refine ⟨?_, hg, hk, ?_⟩
  · intro s
    unfold fold_global_adjusted_stretch
    field_simp
  · unfold fold_global
    rw [if_neg (not_not_intro (show (1:ℚ) ≤ 4 by norm_num))]
    rw [if_neg (show ¬ are_all_measurements_terminal c = false by simp [hT])]
    simp only [hg, hadj]
    rw [if_neg hn.ne']
    rw [show append_global_folds (strip_measurements c) (strip_measurements c) 1 =
      strip_measurements c ++
        (inverse_circuit (strip_measurements c) ++ strip_measurements c) from rfl]
    rw [hloc]

/-- Claim C5 witness: the amended statement at the concrete circuit
with one gate and one terminal measurement. -/
theorem claim_C5_witness :
    (∀ s : ℚ, fold_global_adjusted_stretch circ_meas_last s * (num_ops circ_meas_last : ℚ) =
      2 * (global_num_to_fold_locally circ_meas_last s : ℚ) +
        (num_ops circ_meas_last : ℚ)) ∧
    num_global_folds 4 = 1 ∧
    global_num_to_fold_locally circ_meas_last 4 = 0 ∧
    fold_global circ_meas_last 4 fold_gates_from_left =
      .ok (append_measurements
        (strip_measurements circ_meas_last ++
          (inverse_circuit (strip_measurements circ_meas_last) ++
            strip_measurements circ_meas_last))
        (find_measurements circ_meas_last)) :=
  claim_C5_amended circ_meas_last fold_gates_from_left (by decide) (by decide)

end FoldingCirq

